import Mathlib

/-!
Verification of the attendance-app data model, monthly report aggregation and
client rendering logic.

The repository ships `schema.sql` (four tables: classes, users, attendance,
holidays) and the single-page client `static/app.js`.  The server-side
request handlers are not part of the sources; where a property depends on
them, the handler is modelled from the specification and the corresponding
definition's doc comment starts with `Modelled from the spec:`.
-/

namespace AttendanceApp

/-- A row of the `classes` table (`schema.sql`): surrogate id plus unique name. -/
structure SchoolClass where
  id : Nat
  name : String
deriving DecidableEq, Repr

/-- A row of the `users` table (`schema.sql`).  `role` is checked by the schema
to be admin, teacher or student; `class_id` and `teacher_status` are nullable. -/
structure User where
  id : Nat
  username : String
  password : String
  full_name : String
  role : String
  class_id : Option Nat
  teacher_status : Option String
deriving DecidableEq, Repr

/-- A row of the `attendance` table (`schema.sql`), without the surrogate id:
the schema makes `(student_user_id, date)` unique, so the key fields plus the
payload fields determine a row. -/
structure AttRow where
  student_user_id : Nat
  date : String
  status : String
  remarks : String
deriving DecidableEq, Repr

/-- The relational store: the four tables of `schema.sql`.  Holidays are kept
as their (unique) date strings. -/
structure DB where
  classes : List SchoolClass
  users : List User
  attendance : List AttRow
  holidays : List String
deriving DecidableEq, Repr

/-- The four attendance statuses used throughout the client (`app.js`: the
mark buttons pass exactly these, and the report renderer matches on them). -/
def validStatus (s : String) : Bool :=
  s == "Full Day" || s == "Half Day" || s == "Absent" || s == "Holiday"

/-- Whether a row carries the `(student_user_id, date)` key of the
`UNIQUE(student_user_id, date)` constraint. -/
def AttRow.matchesKey (r : AttRow) (sid : Nat) (d : String) : Bool :=
  r.student_user_id == sid && r.date == d

/-- The attendance rows holding one `(student, date)` key. -/
def rowsFor (att : List AttRow) (sid : Nat) (d : String) : List AttRow :=
  att.filter (fun r => r.matchesKey sid d)

/-- The `UNIQUE(student_user_id, date)` constraint of `schema.sql`:
at most one row per key. -/
def uniquePerKey (att : List AttRow) : Prop :=
  ∀ sid d, (rowsFor att sid d).length ≤ 1

/-- Overwriting the payload fields of a row, keeping its key. -/
def overwrite (s rem : String) (r : AttRow) : AttRow :=
  { r with status := s, remarks := rem }

/-- Modelled from the spec: the marking handler upserts the `(student, date)`
attendance row — overwriting status/remarks when a row with that key exists,
inserting otherwise (the unique constraint plus an insert-or-replace policy). -/
def upsertRow (att : List AttRow) (sid : Nat) (d s rem : String) : List AttRow :=
  if att.any (fun r => r.matchesKey sid d) then
    att.map (fun r => if r.matchesKey sid d then overwrite s rem r else r)
  else att ++ [⟨sid, d, s, rem⟩]

/-- Modelled from the spec: the `markAttendance` handler is not under the
sources (only its schema and its client caller are).  Per the spec it upserts
the `(student, date)` row and `status` must be one of the four enumerated
values; other statuses are rejected with no row written. -/
def markAttendance (db : DB) (sid : Nat) (d s rem : String) : Except String DB :=
  if validStatus s then
    Except.ok { db with attendance := upsertRow db.attendance sid d s rem }
  else Except.error "Invalid status"

/-- Payload of one day's report entry, as the client reads it
(`dailyData.status` / `dailyData.remarks`, `app.js` 309-315). -/
structure DailyData where
  status : String
  remarks : String
deriving DecidableEq, Repr

/-- Whether the first list of characters starts the second. -/
def listStarts : List Char → List Char → Bool
  | [], _ => true
  | _ :: _, [] => false
  | p :: ps, c :: cs => p == c && listStarts ps cs

/-- Whether `s` starts with `pre`, on the underlying character lists. -/
def strStarts (s pre : String) : Bool :=
  listStarts pre.data s.data

/-- Modelled from the spec: the report handler restricts a student's rows to
the report month; dates are ISO `YYYY-MM-DD` and months `YYYY-MM`, so a row
belongs to the month when its date starts with the month followed by a dash. -/
def monthRows (att : List AttRow) (sid : Nat) (month : String) : List AttRow :=
  att.filter (fun r => r.student_user_id == sid && strStarts r.date (month ++ "-"))

/-- Modelled from the spec: the per-student report maps each existing
attendance row of the month to its full date key; days with no row get no
entry. -/
def reportFor (att : List AttRow) (sid : Nat) (month : String) :
    List (String × DailyData) :=
  (monthRows att sid month).map (fun r => (r.date, ⟨r.status, r.remarks⟩))

/-- The client's `studentReport[dateStr]` lookup (`app.js` 309). -/
def reportLookup (rep : List (String × DailyData)) (d : String) : Option DailyData :=
  (rep.find? (fun e => e.1 == d)).map (fun e => e.2)

/-- How many of a student's month rows hold one given status. -/
def countStatus (rows : List AttRow) (s : String) : Nat :=
  (rows.filter (fun r => r.status == s)).length

/-- One accumulation step of the summary scan: +1 present for Full Day,
+0.5 present for Half Day, +1 absent for Absent; other statuses (Holiday)
contribute nothing. -/
def sumStep (acc : ℚ × Nat) (r : AttRow) : ℚ × Nat :=
  if r.status == "Full Day" then (acc.1 + 1, acc.2)
  else if r.status == "Half Day" then (acc.1 + 1/2, acc.2)
  else if r.status == "Absent" then (acc.1, acc.2 + 1)
  else acc

/-- Modelled from the spec: the report handler scans the student's month rows
once, accumulating the fractional present count and the integer absent count. -/
def accumSummary (rows : List AttRow) : ℚ × Nat :=
  rows.foldl sumStep (0, 0)

/-- The field `summary[student].present` of the monthly report. -/
def summaryPresent (att : List AttRow) (sid : Nat) (month : String) : ℚ :=
  (accumSummary (monthRows att sid month)).1

/-- The field `summary[student].absent` of the monthly report. -/
def summaryAbsent (att : List AttRow) (sid : Nat) (month : String) : Nat :=
  (accumSummary (monthRows att sid month)).2

/-- The JavaScript `Number.prototype.toFixed(1)` for the non-negative half-step values the
summary produces (`app.js` 318 renders `present.toFixed(1)`); on multiples of
0.5 both the IEEE double and the rounding are exact, so flooring suffices. -/
def toFixed1 (q : ℚ) : String :=
  toString (⌊q * 10⌋ / 10) ++ "." ++ toString (⌊q * 10⌋ % 10)

/-- The client's present-cell rendering `summary[student.id].present.toFixed(1)`
(`app.js` 318). -/
def presentDisplay (att : List AttRow) (sid : Nat) (month : String) : String :=
  toFixed1 (summaryPresent att sid month)

/-- The client's absent-cell rendering, the plain integer interpolation of
`summary[student.id].absent` (`app.js` 319). -/
def absentDisplay (att : List AttRow) (sid : Nat) (month : String) : String :=
  toString (summaryAbsent att sid month)

/-- Attendance rows for the C1 scenario: student 1 has two Full Day and one
Half Day rows in 2024-03, student 2 has two Absent rows there. -/
def sampleAtt : List AttRow :=
  [⟨1, "2024-03-01", "Full Day", ""⟩, ⟨1, "2024-03-04", "Full Day", ""⟩,
   ⟨1, "2024-03-05", "Half Day", ""⟩, ⟨2, "2024-03-01", "Absent", ""⟩,
   ⟨2, "2024-03-02", "Absent", ""⟩]

/-- Gregorian leap-year test.  Modelled from the spec: the days-in-month
computation lives in the server, which is not under the sources. -/
def isLeapYear (y : Nat) : Bool :=
  (y % 4 == 0 && y % 100 != 0) || y % 400 == 0

/-- Modelled from the spec: the calendar length of a month, leap years
included. -/
def daysInMonthCount (y m : Nat) : Nat :=
  if m == 2 then (if isLeapYear y then 29 else 28)
  else if m == 4 || m == 6 || m == 9 || m == 11 then 30
  else 31

/-- Zero-padding a day-of-month number to two characters. -/
def pad2 (n : Nat) : String :=
  if n < 10 then "0" ++ toString n else toString n

/-- Modelled from the spec: `days_in_month` of the monthly report payload, the
ordered zero-padded day strings 01 .. last day of the month. -/
def days_in_month (y m : Nat) : List String :=
  (List.range (daysInMonthCount y m)).map (fun i => pad2 (i + 1))

/-- Per-cell content of `renderMonthlyReportTable` (`app.js` 310-315): the
cell text comes from the student's own daily record only. -/
def cellContent (dailyData : Option DailyData) : String :=
  match dailyData with
  | some dd =>
    if dd.status == "Full Day" then "F"
    else if dd.status == "Half Day" then "H"
    else if dd.status == "Absent" then "A"
    else if dd.status == "Holiday" then "HLY"
    else "&nbsp;"
  | none => "&nbsp;"

/-- Per-cell CSS class of `renderMonthlyReportTable` (`app.js` 310-315). -/
def cellClass (dailyData : Option DailyData) : String :=
  match dailyData with
  | some dd =>
    if dd.status == "Full Day" then "bg-green-100"
    else if dd.status == "Half Day" then "bg-yellow-100"
    else if dd.status == "Absent" then "bg-red-100"
    else if dd.status == "Holiday" then "bg-gray-200"
    else ""
  | none => ""

/-- Day-column header class of `renderMonthlyReportTable` (`app.js` 298-300):
orange exactly when the day is in the month's holiday list. -/
def headerClass (holidays : List String) (day : String) : String :=
  if holidays.contains day then "bg-orange-200" else ""

/-- Modelled from the spec: `deleteStudent` deletes the user row; the
`ON DELETE CASCADE` clause on `attendance.student_user_id` (`schema.sql`
line 30) removes every attendance row of that student with it. -/
def deleteStudent (db : DB) (sid : Nat) : DB :=
  { db with
    users := db.users.filter (fun u => u.id != sid),
    attendance := db.attendance.filter (fun r => r.student_user_id != sid) }

/-- Modelled from the spec: the monthly report's student list, the users with
role student in the teacher's class. -/
def studentsOfClass (db : DB) (cid : Nat) : List User :=
  db.users.filter (fun u => u.role == "student" && u.class_id == some cid)

/-- The next AUTOINCREMENT id for the user table. -/
def freshId (us : List User) : Nat :=
  (us.map (fun u => u.id)).foldr max 0 + 1

/-- The data model's role invariant: role is one of the three enumerated
values, teacher_status is non-null only on teachers, and students carry a
class. -/
def roleOk (u : User) : Prop :=
  (u.role = "admin" ∨ u.role = "teacher" ∨ u.role = "student") ∧
  (u.teacher_status ≠ none → u.role = "teacher") ∧
  (u.role = "student" → u.class_id ≠ none)

/-- Modelled from the spec: teacher signup creates a user row with role
teacher, the chosen class and status pending; duplicate usernames and unknown
classes are rejected. -/
def registerTeacher (db : DB) (fn un pw : String) (cid : Nat) : Except String DB :=
  if db.users.any (fun u => u.username == un) then Except.error "Username already taken"
  else if db.classes.any (fun c => c.id == cid) then
    Except.ok { db with users := db.users ++
      [⟨freshId db.users, un, pw, fn, "teacher", some cid, some "pending"⟩] }
  else Except.error "Invalid class"

/-- Modelled from the spec: a teacher adds a student with role student into
the teacher's own class, with no approval status. -/
def addStudentUser (db : DB) (cid : Nat) (fn un pw : String) : Except String DB :=
  if db.users.any (fun u => u.username == un) then Except.error "Username already taken"
  else Except.ok { db with users := db.users ++
    [⟨freshId db.users, un, pw, fn, "student", some cid, none⟩] }

/-- Modelled from the spec: approval sets a teacher's status to approved. -/
def approveTeacher (db : DB) (tid : Nat) : DB :=
  { db with users := db.users.map (fun u =>
      if u.id == tid && u.role == "teacher" then { u with teacher_status := some "approved" }
      else u) }

/-- A parsed JSON response as `apiCall` sees it: the HTTP status code, the
optional `message` field of the body, and the successful payload. -/
structure ApiResponse (α : Type) where
  statusCode : Nat
  message : Option String
  payload : α

/-- The `fetch` API field `Response.ok`: status in the 2xx range. -/
def respOk (statusCode : Nat) : Bool :=
  decide (200 ≤ statusCode ∧ statusCode < 300)

/-- The fallback error text of `apiCall` (`app.js` 17). -/
def httpErrorText (statusCode : Nat) : String :=
  "HTTP error! status: " ++ toString statusCode

/-- JavaScript's `data.message || fallback`: the message unless it is absent
or falsy (the empty string). -/
def messageOrFallback (msg : Option String) (statusCode : Nat) : String :=
  match msg with
  | some m => if m == "" then httpErrorText statusCode else m
  | none => httpErrorText statusCode

/-- The client's `apiCall` (`app.js` 11-20): on a 2xx response return the
parsed payload, otherwise throw an error holding `data.message` or the
fallback text; no retry, no local recovery. -/
def apiCall {α : Type} (resp : ApiResponse α) : Except String α :=
  if respOk resp.statusCode then Except.ok resp.payload
  else Except.error (messageOrFallback resp.message resp.statusCode)

/-- The client call sites of `apiCall` in `app.js`, one per fetch. -/
inductive CallSite
  | login
  | signup
  | logout
  | pendingTeachers
  | approveTeacherBtn
  | adminClasses
  | addClassBtn
  | teacherStudents
  | addStudentBtn
  | editStudentBtn
  | deleteStudentBtn
  | markOne
  | markAllStudents
  | monthlyReport
  | holidayList
  | addHolidayBtn
  | deleteHolidayBtn
  | studentData
  | signupClassList
  | sessionCheck
deriving DecidableEq, Repr

/-- What a call site's `catch` (or its absence) does with the thrown error. -/
inductive ErrAction
  | inlineText
  | alertBox
  | genericText
  | switchToLoginView
  | noHandler
deriving DecidableEq, Repr

/-- The error handling at each `apiCall` call site, read off `app.js`:
inlineText writes `error.message` into a page element, alertBox shows
`alert(... + error.message)`, genericText shows fixed text without the
message, switchToLoginView drops the error and shows the login view,
noHandler has no try/catch at all. -/
def errorHandler : CallSite → ErrAction
  | .login => .inlineText
  | .signup => .inlineText
  | .logout => .noHandler
  | .pendingTeachers => .inlineText
  | .approveTeacherBtn => .alertBox
  | .adminClasses => .inlineText
  | .addClassBtn => .alertBox
  | .teacherStudents => .alertBox
  | .addStudentBtn => .alertBox
  | .editStudentBtn => .alertBox
  | .deleteStudentBtn => .alertBox
  | .markOne => .alertBox
  | .markAllStudents => .alertBox
  | .monthlyReport => .inlineText
  | .holidayList => .alertBox
  | .addHolidayBtn => .alertBox
  | .deleteHolidayBtn => .alertBox
  | .studentData => .alertBox
  | .signupClassList => .genericText
  | .sessionCheck => .switchToLoginView

/-- Whether an error handling action shows the error's message to the user. -/
def displaysErrorMessage : ErrAction → Bool
  | .inlineText => true
  | .alertBox => true
  | _ => false

/-- Character-level whitespace test covering the whitespace the app's text
inputs can contain, for modelling `String.prototype.trim`. -/
def isWsChar (c : Char) : Bool :=
  c == ' ' || c == '\t' || c == '\n' || c == '\r'

/-- The JavaScript `String.prototype.trim`: drop whitespace from both ends. -/
def jsTrim (s : String) : String :=
  ⟨((s.data.dropWhile isWsChar).reverse.dropWhile isWsChar).reverse⟩

/-- The POST body of the client's `addStudent`. -/
structure StudentRequest where
  name : String
  username : String
  password : String
deriving DecidableEq, Repr

/-- The client's `addStudent` (`app.js` 215-230): trim the three inputs,
default an empty trimmed password to 'studentpass' (JavaScript's
`|| 'studentpass'` on the falsy empty string), abort client-side when the
trimmed name or username is empty, otherwise send the POST body. -/
def addStudentRequest (nameRaw unRaw pwRaw : String) : Option StudentRequest :=
  if jsTrim nameRaw == "" || jsTrim unRaw == "" then none
  else some ⟨jsTrim nameRaw, jsTrim unRaw,
    if jsTrim pwRaw == "" then "studentpass" else jsTrim pwRaw⟩

theorem matchesKey_overwrite (s rem : String) (r : AttRow) (sid : Nat) (d : String) :
    (overwrite s rem r).matchesKey sid d = r.matchesKey sid d := rfl

theorem rowsFor_nil (sid : Nat) (d : String) : rowsFor [] sid d = [] := rfl

theorem rowsFor_cons (a : AttRow) (t : List AttRow) (sid : Nat) (d : String) :
    rowsFor (a :: t) sid d =
      if a.matchesKey sid d then a :: rowsFor t sid d else rowsFor t sid d := by
  cases h : a.matchesKey sid d <;> simp [rowsFor, List.filter_cons, h]

theorem rowsFor_append (l₁ l₂ : List AttRow) (sid : Nat) (d : String) :
    rowsFor (l₁ ++ l₂) sid d = rowsFor l₁ sid d ++ rowsFor l₂ sid d := by
  simp [rowsFor, List.filter_append]

theorem mem_rowsFor {r : AttRow} {att : List AttRow} {sid : Nat} {d : String}
    (h : r ∈ rowsFor att sid d) : r ∈ att ∧ r.matchesKey sid d = true := by
  simpa [rowsFor, List.mem_filter] using h

theorem matchesKey_self (sid : Nat) (d s rem : String) :
    (AttRow.mk sid d s rem).matchesKey sid d = true := by
  simp [AttRow.matchesKey]

theorem rowsFor_map_overwrite (att : List AttRow) (sid : Nat) (d s rem : String) :
    rowsFor (att.map (fun r => if r.matchesKey sid d then overwrite s rem r else r)) sid d
      = (rowsFor att sid d).map (overwrite s rem) := by
  induction att with
  | nil => rfl
  | cons a t ih =>
    rw [List.map_cons, rowsFor_cons, rowsFor_cons]
    cases h : a.matchesKey sid d with
    | true => simp [h, matchesKey_overwrite, rowsFor_cons, ih]
    | false => simp [h, rowsFor_cons, ih]

theorem any_eq_false_rowsFor {att : List AttRow} {sid : Nat} {d : String}
    (h : att.any (fun r => r.matchesKey sid d) = false) : rowsFor att sid d = [] := by
  rw [rowsFor, List.filter_eq_nil_iff]
  intro r hr
  exact (List.any_eq_false.mp h) r hr

theorem any_eq_true_rowsFor {att : List AttRow} {sid : Nat} {d : String}
    (h : att.any (fun r => r.matchesKey sid d) = true) : rowsFor att sid d ≠ [] := by
  obtain ⟨r, hr, hk⟩ := List.any_eq_true.mp h
  intro hnil
  have : r ∈ rowsFor att sid d := by
    simp [rowsFor, List.mem_filter, hr, hk]
  rw [hnil] at this
  exact List.not_mem_nil r this

/-- After an upsert for a key held by at most one row, exactly that key's row
exists, with the new payload. -/
theorem rowsFor_upsertRow (att : List AttRow) (sid : Nat) (d s rem : String)
    (hu : (rowsFor att sid d).length ≤ 1) :
    rowsFor (upsertRow att sid d s rem) sid d = [⟨sid, d, s, rem⟩] := by
  unfold upsertRow
  cases hany : att.any (fun r => r.matchesKey sid d) with
  | false =>
    rw [if_neg (by simp)]
    rw [rowsFor_append, any_eq_false_rowsFor hany]
    simp [rowsFor, List.filter_cons, matchesKey_self]
  | true =>
    rw [if_pos rfl]
    rw [rowsFor_map_overwrite]
    have hne := any_eq_true_rowsFor hany
    match hrows : rowsFor att sid d with
    | [] => exact absurd hrows hne
    | r :: rest =>
      have hlen : rest.length = 0 := by
        have := hu
        rw [hrows] at this
        simpa using this
      have hrest : rest = [] := List.length_eq_zero.mp hlen
      subst hrest
      have hr : r ∈ rowsFor att sid d := by rw [hrows]; exact List.mem_cons_self r []
      obtain ⟨-, hk⟩ := mem_rowsFor hr
      have hsid : r.student_user_id = sid := by
        have := hk
        simp [AttRow.matchesKey] at this
        exact this.1
      have hd : r.date = d := by
        have := hk
        simp [AttRow.matchesKey] at this
        exact this.2
      simp [overwrite, hsid, hd]

theorem countStatus_cons (r : AttRow) (t : List AttRow) (s : String) :
    countStatus (r :: t) s =
      if r.status == s then countStatus t s + 1 else countStatus t s := by
  cases h : r.status == s <;> simp [countStatus, List.filter_cons, h]

theorem foldl_sumStep (rows : List AttRow) (a : ℚ) (b : Nat) :
    rows.foldl sumStep (a, b) =
      (a + countStatus rows "Full Day" + (countStatus rows "Half Day" : ℚ) / 2,
        b + countStatus rows "Absent") := by
  induction rows generalizing a b with
  | nil => simp [countStatus]
  | cons r t ih =>
    rw [List.foldl_cons, countStatus_cons, countStatus_cons, countStatus_cons]
    by_cases h1 : r.status = "Full Day"
    · have hstep : sumStep (a, b) r = (a + 1, b) := by simp [sumStep, h1]
      rw [hstep, ih]
      simp +decide [h1, Prod.ext_iff]
      ring
    · by_cases h2 : r.status = "Half Day"
      · have hstep : sumStep (a, b) r = (a + 1/2, b) := by simp +decide [sumStep, h2]
        rw [hstep, ih]
        simp +decide [h2, Prod.ext_iff]
        ring
      · by_cases h3 : r.status = "Absent"
        · have hstep : sumStep (a, b) r = (a, b + 1) := by simp +decide [sumStep, h3]
          rw [hstep, ih]
          simp +decide [h3, Prod.ext_iff]
          omega
        · have hstep : sumStep (a, b) r = (a, b) := by simp [sumStep, h1, h2, h3]
          rw [hstep, ih]
          simp [h1, h2, h3]

theorem toFixed1_half (k : Nat) :
    ∃ ip : Int, toFixed1 ((k : ℚ) / 2) =
      toString ip ++ "." ++ (if k % 2 = 0 then "0" else "5") := by
  refine ⟨(5 * (k : Int)) / 10, ?_⟩
  have h10 : ((k : ℚ) / 2) * 10 = ((5 * (k : Int) : Int) : ℚ) := by push_cast; ring
  rw [toFixed1, h10, Int.floor_intCast]
  by_cases hk : k % 2 = 0
  · have h5 : (5 * (k : Int)) % 10 = 0 := by omega
    rw [if_pos hk, h5]
    rfl
  · have h5 : (5 * (k : Int)) % 10 = 5 := by omega
    rw [if_neg hk, h5]
    rfl

/-- C1: the monthly summary's present is 1.0 per Full Day row of the month
plus 0.5 per Half Day row, and absent is the integer count of Absent rows;
two Full Day plus one Half Day give present 2.5 and two Absent give absent 2;
present renders with exactly one decimal digit (0 or 5) and absent renders as
the whole number. -/
theorem monthly_summary_counts (att : List AttRow) (sid : Nat) (month : String) :
    (summaryPresent att sid month =
      (countStatus (monthRows att sid month) "Full Day" : ℚ)
        + (countStatus (monthRows att sid month) "Half Day" : ℚ) / 2) ∧
    (summaryAbsent att sid month = countStatus (monthRows att sid month) "Absent") ∧
    (∃ ip : Int, presentDisplay att sid month =
      toString ip ++ "." ++
        (if countStatus (monthRows att sid month) "Half Day" % 2 = 0 then "0" else "5")) ∧
    (absentDisplay att sid month =
      toString (countStatus (monthRows att sid month) "Absent")) ∧
    (summaryPresent sampleAtt 1 "2024-03" = 5/2 ∧
      presentDisplay sampleAtt 1 "2024-03" = "2.5" ∧
      summaryAbsent sampleAtt 2 "2024-03" = 2 ∧
      absentDisplay sampleAtt 2 "2024-03" = "2") := by
  have hpres : summaryPresent att sid month =
      (countStatus (monthRows att sid month) "Full Day" : ℚ)
        + (countStatus (monthRows att sid month) "Half Day" : ℚ) / 2 := by
    rw [summaryPresent, accumSummary, foldl_sumStep]
    simp
  have habs : summaryAbsent att sid month =
      countStatus (monthRows att sid month) "Absent" := by
    rw [summaryAbsent, accumSummary, foldl_sumStep]
    simp
  have hFD : countStatus (monthRows sampleAtt 1 "2024-03") "Full Day" = 2 := by decide
  have hHD : countStatus (monthRows sampleAtt 1 "2024-03") "Half Day" = 1 := by decide
  have hAB : countStatus (monthRows sampleAtt 2 "2024-03") "Absent" = 2 := by decide
  have s1 : summaryPresent sampleAtt 1 "2024-03" = 5/2 := by
    rw [summaryPresent, accumSummary, foldl_sumStep]
    rw [hFD, hHD]
    norm_num
  have s2 : presentDisplay sampleAtt 1 "2024-03" = "2.5" := by
    rw [presentDisplay, s1, toFixed1]
    have h25 : (5/2 : ℚ) * 10 = ((25 : Int) : ℚ) := by norm_num
    rw [h25, Int.floor_intCast]
    rfl
  have s3 : summaryAbsent sampleAtt 2 "2024-03" = 2 := by
    rw [summaryAbsent, accumSummary, foldl_sumStep]
    simp [hAB]
  have s4 : absentDisplay sampleAtt 2 "2024-03" = "2" := by
    rw [absentDisplay, s3]
    rfl
  refine ⟨hpres, habs, ?_, ?_, s1, s2, s3, s4⟩
  · have hhalf : summaryPresent att sid month =
        (((2 * countStatus (monthRows att sid month) "Full Day"
            + countStatus (monthRows att sid month) "Half Day" : Nat)) : ℚ) / 2 := by
      rw [hpres]; push_cast; ring
    obtain ⟨ip, hip⟩ := toFixed1_half
      (2 * countStatus (monthRows att sid month) "Full Day"
        + countStatus (monthRows att sid month) "Half Day")
    refine ⟨ip, ?_⟩
    rw [presentDisplay, hhalf, hip]
    have hmod : (2 * countStatus (monthRows att sid month) "Full Day"
        + countStatus (monthRows att sid month) "Half Day") % 2
        = countStatus (monthRows att sid month) "Half Day" % 2 := by omega
    rw [hmod]
  · rw [absentDisplay, habs]

/-- C3: `days_in_month` is the ordered sequence of zero-padded day strings
whose length is the calendar day count of the month — between 28 and 31, the
February length being 29 exactly in leap years; entry `i` denotes day `i + 1`
and is two characters wide for the first 31 days; 2024-02 has 29 entries,
2023-02 has 28 and 2024-04 has 30. -/
theorem days_in_month_calendar (y m : Nat) :
    ((days_in_month y m).length = daysInMonthCount y m) ∧
    (28 ≤ (days_in_month y m).length ∧ (days_in_month y m).length ≤ 31) ∧
    ((days_in_month y 2).length = 29 ↔ isLeapYear y = true) ∧
    (∀ i, i < daysInMonthCount y m → (days_in_month y m)[i]? = some (pad2 (i + 1))) ∧
    (∀ i, i < daysInMonthCount y m → (pad2 (i + 1)).length = 2) ∧
    ((days_in_month 2024 2).length = 29 ∧
      (days_in_month 2023 2).length = 28 ∧
      (days_in_month 2024 4).length = 30) := by
  have hlen : ∀ y' m', (days_in_month y' m').length = daysInMonthCount y' m' := by
    intro y' m'
    simp [days_in_month]
  have hbounds : 28 ≤ daysInMonthCount y m ∧ daysInMonthCount y m ≤ 31 := by
    unfold daysInMonthCount
    split
    · split <;> omega
    · split <;> omega
  refine ⟨hlen y m, ?_, ?_, ?_, ?_, by decide, by decide, by decide⟩
  · rw [hlen]
    exact hbounds
  · rw [hlen]
    simp only [daysInMonthCount]
    cases hleap : isLeapYear y <;> simp [hleap]
  · intro i hi
    simp [days_in_month, List.getElem?_map, List.getElem?_range, hi]
  · intro i hi
    have h31 : i < 31 := Nat.lt_of_lt_of_le hi hbounds.2
    interval_cases i <;> rfl

/-- Witness for C3: the first column of February 2024 is day 01, and the
month is non-empty. -/
theorem days_in_month_calendar_witness :
    0 < daysInMonthCount 2024 2 ∧ (days_in_month 2024 2)[0]? = some (pad2 1) :=
  ⟨by decide, (days_in_month_calendar 2024 2).2.2.2.1 0 (by decide)⟩

/-- C4: a date in the Holiday table marks the whole day column — its header
cell turns orange for every student — independently of the per-student report,
while a student's own record with status Holiday marks only that student's
cell; both paths exist and neither suppresses the other: a global holiday
leaves a recordless student's cell blank, and a student Holiday record renders
even on a day absent from the Holiday table. -/
theorem holiday_overlay_paths (holidays : List String) (day rem : String) :
    (headerClass holidays day = "bg-orange-200" ↔ day ∈ holidays) ∧
    (day ∉ holidays → headerClass holidays day = "") ∧
    (cellContent (some ⟨"Holiday", rem⟩) = "HLY" ∧
      cellClass (some ⟨"Holiday", rem⟩) = "bg-gray-200") ∧
    (cellContent none = "&nbsp;" ∧ cellClass none = "") := by
  have hc : holidays.contains day = true ↔ day ∈ holidays := by
    simp
  have hfalse : day ∉ holidays → holidays.contains day = false := by
    intro h
    cases hcv : holidays.contains day
    · rfl
    · exact absurd (hc.mp hcv) h
  refine ⟨?_, ?_, ?_, ?_⟩
  · by_cases h : day ∈ holidays
    · simp [headerClass, hc.mpr h, h]
    · simp +decide [headerClass, hfalse h, h]
  · intro h
    simp [headerClass, hfalse h, h]
  · constructor
    · simp +decide [cellContent]
    · simp +decide [cellClass]
  · exact ⟨rfl, rfl⟩

/-- Witness for C4: day 15 is not a holiday in a concrete one-holiday list,
so its header is unmarked, while a student Holiday record still renders. -/
theorem holiday_overlay_paths_witness :
    ("15" ∉ ["04"]) ∧ headerClass ["04"] "15" = "" ∧
      cellContent (some ⟨"Holiday", ""⟩) = "HLY" :=
  ⟨by decide, (holiday_overlay_paths ["04"] "15" "").2.1 (by decide),
    (holiday_overlay_paths ["04"] "15" "").2.2.1.1⟩

/-- C5: a (student, day) pair with no attendance row gets no report entry and
the client renders the cell blank, and summary.absent counts only the rows
explicitly marked Absent — an unmarked day never counts as absent. -/
theorem unmarked_day_blank (att : List AttRow) (sid : Nat) (month d : String)
    (hnone : ∀ r ∈ att, ¬(r.student_user_id = sid ∧ r.date = d)) :
    reportLookup (reportFor att sid month) d = none ∧
    cellContent (reportLookup (reportFor att sid month) d) = "&nbsp;" ∧
    summaryAbsent att sid month = countStatus (monthRows att sid month) "Absent" := by
  have hfind : (reportFor att sid month).find? (fun e => e.1 == d) = none := by
    rw [List.find?_eq_none]
    rintro ⟨dt, dd⟩ hx
    intro hbeq
    obtain ⟨r, hr, hxeq⟩ := List.mem_map.mp hx
    obtain ⟨hratt, hrkey⟩ := List.mem_filter.mp hr
    have hsid : r.student_user_id = sid := by
      simp only [Bool.and_eq_true, beq_iff_eq] at hrkey
      exact hrkey.1
    injection hxeq with h1 h2
    have hdate : r.date = d := by
      rw [h1]
      simpa using hbeq
    exact hnone r hratt ⟨hsid, hdate⟩
  have hlook : reportLookup (reportFor att sid month) d = none := by
    rw [reportLookup, hfind]
    rfl
  refine ⟨hlook, ?_, ?_⟩
  · rw [hlook]
    rfl
  · rw [summaryAbsent, accumSummary, foldl_sumStep]
    simp

/-- Witness for C5: student 1 has no row on 2024-03-02, so the lookup is
empty and the cell renders blank. -/
theorem unmarked_day_blank_witness :
    (∀ r ∈ [AttRow.mk 2 "2024-03-01" "Full Day" ""],
      ¬(r.student_user_id = 1 ∧ r.date = "2024-03-02")) ∧
    reportLookup (reportFor [AttRow.mk 2 "2024-03-01" "Full Day" ""] 1 "2024-03")
      "2024-03-02" = none :=
  ⟨by decide,
   (unmarked_day_blank [AttRow.mk 2 "2024-03-01" "Full Day" ""] 1 "2024-03" "2024-03-02"
     (by decide)).1⟩

/-- C2: for a database satisfying the schema's `UNIQUE(student_user_id, date)`
constraint, calling `markAttendance` and then immediately re-marking the same
(student, date) with a different status leaves exactly one attendance row for
that pair, and it holds the latest status and remarks (overwrite, not
accumulation). -/
theorem markAttendance_overwrites (db : DB) (sid : Nat) (d s₁ s₂ r₁ r₂ : String)
    (hu : uniquePerKey db.attendance)
    (h₁ : validStatus s₁ = true) (h₂ : validStatus s₂ = true) :
    ∃ db₁ db₂,
      markAttendance db sid d s₁ r₁ = Except.ok db₁ ∧
      markAttendance db₁ sid d s₂ r₂ = Except.ok db₂ ∧
      rowsFor db₂.attendance sid d = [⟨sid, d, s₂, r₂⟩] := by
  refine ⟨{ db with attendance := upsertRow db.attendance sid d s₁ r₁ },
    { db with attendance := upsertRow (upsertRow db.attendance sid d s₁ r₁) sid d s₂ r₂ },
    by simp [markAttendance, h₁], by simp [markAttendance, h₂], ?_⟩
  apply rowsFor_upsertRow
  rw [rowsFor_upsertRow db.attendance sid d s₁ r₁ (hu sid d)]
  simp

/-- Witness for C2 at a concrete empty database. -/
theorem markAttendance_overwrites_witness :
    uniquePerKey (DB.mk [] [] [] []).attendance ∧
    validStatus "Full Day" = true ∧ validStatus "Absent" = true ∧
    ∃ db₁ db₂,
      markAttendance (DB.mk [] [] [] []) 1 "2024-03-01" "Full Day" "" = Except.ok db₁ ∧
      markAttendance db₁ 1 "2024-03-01" "Absent" "late" = Except.ok db₂ ∧
      rowsFor db₂.attendance 1 "2024-03-01" = [⟨1, "2024-03-01", "Absent", "late"⟩] :=
  ⟨fun sid d => by simp [rowsFor], by decide, by decide,
   markAttendance_overwrites (DB.mk [] [] [] []) 1 "2024-03-01" "Full Day" "Absent" "" "late"
     (fun sid d => by simp [rowsFor]) (by decide) (by decide)⟩

/-- C7: a status outside the four enumerated values is rejected by
`markAttendance` with no row written, and a successful mark preserves the
invariant that every stored attendance row carries an enumerated status. -/
theorem attendance_status_enumerated (db : DB) (sid : Nat) (d s rem : String) :
    (validStatus s = false → markAttendance db sid d s rem = Except.error "Invalid status") ∧
    (∀ db', (∀ r ∈ db.attendance, validStatus r.status = true) →
      markAttendance db sid d s rem = Except.ok db' →
      ∀ r ∈ db'.attendance, validStatus r.status = true) := by
  constructor
  · intro hs
    simp [markAttendance, hs]
  · intro db' hall hok r hr
    by_cases hs : validStatus s = true
    case neg =>
      simp [markAttendance, hs] at hok
    case pos =>
      have hdb : db' = { db with attendance := upsertRow db.attendance sid d s rem } := by
        simp [markAttendance, hs] at hok
        exact hok.symm
      subst hdb
      simp only at hr
      unfold upsertRow at hr
      by_cases hany : db.attendance.any (fun x => x.matchesKey sid d) = true
      · rw [if_pos hany] at hr
        obtain ⟨x, hx, hmap⟩ := List.mem_map.mp hr
        by_cases hk : x.matchesKey sid d = true
        · rw [if_pos hk] at hmap
          subst hmap
          simpa [overwrite] using hs
        · rw [if_neg hk] at hmap
          subst hmap
          exact hall x hx
      · rw [if_neg hany] at hr
        rcases List.mem_append.mp hr with h | h
        · exact hall r h
        · have hre : r = ⟨sid, d, s, rem⟩ := by simpa using h
          subst hre
          simpa using hs

/-- Witness for C7: the status "Late" is rejected on a concrete database, and
a successful "Full Day" mark keeps every stored status enumerated. -/
theorem attendance_status_enumerated_witness :
    (validStatus "Late" = false ∧
      markAttendance (DB.mk [] [] [] []) 1 "2024-03-01" "Late" "" =
        Except.error "Invalid status") ∧
    ((∀ r ∈ (DB.mk [] [] [] []).attendance, validStatus r.status = true) ∧
      markAttendance (DB.mk [] [] [] []) 1 "2024-03-01" "Full Day" "" =
        Except.ok (DB.mk [] [] [⟨1, "2024-03-01", "Full Day", ""⟩] []) ∧
      ∀ r ∈ (DB.mk [] [] [⟨1, "2024-03-01", "Full Day", ""⟩] []).attendance,
        validStatus r.status = true) :=
  ⟨⟨by decide,
    (attendance_status_enumerated (DB.mk [] [] [] []) 1 "2024-03-01" "Late" "").1 (by decide)⟩,
   ⟨by simp, rfl,
    (attendance_status_enumerated (DB.mk [] [] [] []) 1 "2024-03-01" "Full Day" "").2
      (DB.mk [] [] [⟨1, "2024-03-01", "Full Day", ""⟩] []) (by simp) rfl⟩⟩

/-- C6: `deleteStudent` removes the student's user row and cascade-deletes
every attendance row with that student id, so the student is in no
subsequent report's student list and has no month rows left. -/
theorem deleteStudent_cascades (db : DB) (sid cid : Nat) (month : String) :
    (∀ u ∈ (deleteStudent db sid).users, u.id ≠ sid) ∧
    (∀ r ∈ (deleteStudent db sid).attendance, r.student_user_id ≠ sid) ∧
    (∀ u ∈ studentsOfClass (deleteStudent db sid) cid, u.id ≠ sid) ∧
    monthRows (deleteStudent db sid).attendance sid month = [] := by
  refine ⟨?_, ?_, ?_, ?_⟩
  · intro u hu
    have h := (List.mem_filter.mp hu).2
    simpa using h
  · intro r hr
    have h := (List.mem_filter.mp hr).2
    simpa using h
  · intro u hu
    have hu2 := (List.mem_filter.mp hu).1
    have h := (List.mem_filter.mp hu2).2
    simpa using h
  · rw [monthRows, List.filter_eq_nil_iff]
    intro r hr
    have hne : r.student_user_id ≠ sid := by
      have h := (List.mem_filter.mp hr).2
      simpa using h
    simp [hne]

/-- C8: the role invariant — role among admin/teacher/student, teacher_status
non-null only on teachers, students with a class — is preserved by every
user-mutating operation: teacher registration, student creation, teacher
approval and student deletion. -/
theorem role_invariant_preserved (db : DB) (hdb : ∀ u ∈ db.users, roleOk u) :
    (∀ fn un pw cid db', registerTeacher db fn un pw cid = Except.ok db' →
      ∀ u ∈ db'.users, roleOk u) ∧
    (∀ cid fn un pw db', addStudentUser db cid fn un pw = Except.ok db' →
      ∀ u ∈ db'.users, roleOk u) ∧
    (∀ tid, ∀ u ∈ (approveTeacher db tid).users, roleOk u) ∧
    (∀ sid, ∀ u ∈ (deleteStudent db sid).users, roleOk u) := by
  refine ⟨?_, ?_, ?_, ?_⟩
  · intro fn un pw cid db' hok u hu
    by_cases hdup : db.users.any (fun v => v.username == un) = true
    · simp [registerTeacher, hdup] at hok
    · by_cases hcls : db.classes.any (fun c => c.id == cid) = true
      · simp [registerTeacher, hdup, hcls] at hok
        subst hok
        rcases List.mem_append.mp hu with h | h
        · exact hdb u h
        · have hx : u = ⟨freshId db.users, un, pw, fn, "teacher", some cid, some "pending"⟩ := by
            simpa using h
          subst hx
          exact ⟨Or.inr (Or.inl rfl), fun _ => rfl, fun hs => absurd hs (by simp)⟩
      · simp [registerTeacher, hdup, hcls] at hok
  · intro cid fn un pw db' hok u hu
    by_cases hdup : db.users.any (fun v => v.username == un) = true
    · simp [addStudentUser, hdup] at hok
    · simp [addStudentUser, hdup] at hok
      subst hok
      rcases List.mem_append.mp hu with h | h
      · exact hdb u h
      · have hx : u = ⟨freshId db.users, un, pw, fn, "student", some cid, none⟩ := by
          simpa using h
        subst hx
        exact ⟨Or.inr (Or.inr rfl), fun hn => absurd rfl hn, fun _ => by simp⟩
  · intro tid u hu
    obtain ⟨v, hv, rfl⟩ := List.mem_map.mp hu
    by_cases hcond : (v.id == tid && v.role == "teacher") = true
    · rw [if_pos hcond]
      have hrole : v.role = "teacher" := by
        simp only [Bool.and_eq_true, beq_iff_eq] at hcond
        exact hcond.2
      exact ⟨Or.inr (Or.inl hrole), fun _ => hrole,
        fun hs => absurd (hrole.symm.trans hs) (by decide)⟩
    · rw [if_neg hcond]
      exact hdb v hv
  · intro sid u hu
    exact hdb u (List.mem_filter.mp hu).1

/-- Witness for C8: from an empty user table (vacuously invariant), a
concrete teacher registration yields only rows satisfying the invariant. -/
theorem role_invariant_preserved_witness :
    (∀ u ∈ (DB.mk [⟨1, "Grade 1"⟩] [] [] []).users, roleOk u) ∧
    (∀ u ∈ (DB.mk [⟨1, "Grade 1"⟩]
        [⟨1, "alice", "pw", "Alice", "teacher", some 1, some "pending"⟩] [] []).users,
      roleOk u) :=
  ⟨fun u hu => absurd hu (List.not_mem_nil u),
   (role_invariant_preserved (DB.mk [⟨1, "Grade 1"⟩] [] [] [])
     (fun u hu => absurd hu (List.not_mem_nil u))).1
     "Alice" "alice" "pw" 1 _ rfl⟩

/-- C9 counterexample: the initial `/api/session` probe (`app.js` 448-453)
catches the error and silently switches to the login view, so not every
client call site displays the error message. -/
theorem apiCall_error_display_cex :
    displaysErrorMessage (errorHandler CallSite.sessionCheck) = false ∧
    ¬ ∀ site : CallSite, displaysErrorMessage (errorHandler site) = true :=
  ⟨rfl, fun h => absurd (h CallSite.sessionCheck) (by decide)⟩

/-- C9 amended: on a non-2xx response `apiCall` raises an error holding the
body's `message` (falling back to the HTTP status text when the message is
absent or empty) and returns no data, and the error is displayed at every
call site except the initial session check (silent fallback to the login
view), logout (no handler) and the signup class-list loader (fixed text
without the message). -/
theorem apiCall_error_amended {α : Type} (resp : ApiResponse α)
    (hfail : respOk resp.statusCode = false) :
    (∀ m, resp.message = some m → m ≠ "" → apiCall resp = Except.error m) ∧
    (resp.message = none → apiCall resp = Except.error (httpErrorText resp.statusCode)) ∧
    (resp.message = some "" → apiCall resp = Except.error (httpErrorText resp.statusCode)) ∧
    (∀ a, apiCall resp ≠ Except.ok a) ∧
    (∀ site : CallSite, site ≠ CallSite.sessionCheck → site ≠ CallSite.logout →
      site ≠ CallSite.signupClassList → displaysErrorMessage (errorHandler site) = true) := by
  refine ⟨?_, ?_, ?_, ?_, ?_⟩
  · intro m hm hne
    simp [apiCall, hfail, messageOrFallback, hm, hne]
  · intro hm
    simp [apiCall, hfail, messageOrFallback, hm]
  · intro hm
    simp [apiCall, hfail, messageOrFallback, hm]
  · intro a
    simp [apiCall, hfail]
  · intro site h1 h2 h3
    cases site <;>
      first
        | rfl
        | exact absurd rfl h1
        | exact absurd rfl h2
        | exact absurd rfl h3

/-- Witness for C9 (amended) at a concrete 404 with a message. -/
theorem apiCall_error_amended_witness :
    respOk 404 = false ∧
    apiCall (ApiResponse.mk 404 (some "Not found") (0 : Nat)) = Except.error "Not found" ∧
    displaysErrorMessage (errorHandler CallSite.login) = true :=
  ⟨by decide,
   (apiCall_error_amended (ApiResponse.mk 404 (some "Not found") (0 : Nat)) (by decide)).1
     "Not found" rfl (by decide),
   (apiCall_error_amended (ApiResponse.mk 404 (some "Not found") (0 : Nat)) (by decide)).2.2.2.2
     CallSite.login (by decide) (by decide) (by decide)⟩

/-- C10: an empty or whitespace-only password is replaced by the fixed
default 'studentpass' before submitting; an empty name or username aborts the
request client-side; every request actually sent carries a non-empty
password. -/
theorem addStudent_default_password (nameRaw unRaw pwRaw : String) :
    (jsTrim pwRaw = "" → jsTrim nameRaw ≠ "" → jsTrim unRaw ≠ "" →
      addStudentRequest nameRaw unRaw pwRaw =
        some ⟨jsTrim nameRaw, jsTrim unRaw, "studentpass"⟩) ∧
    (jsTrim nameRaw = "" ∨ jsTrim unRaw = "" →
      addStudentRequest nameRaw unRaw pwRaw = none) ∧
    (∀ req, addStudentRequest nameRaw unRaw pwRaw = some req → req.password ≠ "") := by
  refine ⟨?_, ?_, ?_⟩
  · intro hp hn hu
    simp [addStudentRequest, hp, hn, hu]
  · intro h
    rcases h with h | h <;> simp [addStudentRequest, h]
  · intro req hreq
    rw [addStudentRequest] at hreq
    by_cases hcond : (jsTrim nameRaw == "" || jsTrim unRaw == "") = true
    · rw [if_pos hcond] at hreq
      exact Option.noConfusion hreq
    · rw [if_neg hcond] at hreq
      injection hreq with h
      subst h
      by_cases hp : (jsTrim pwRaw == "") = true
      · simp [hp]
      · simp [hp]
        simpa using hp

/-- Witness for C10: a whitespace-only password on valid name and username
yields the default password. -/
theorem addStudent_default_password_witness :
    jsTrim "   " = "" ∧ jsTrim "Bob" ≠ "" ∧ jsTrim "bob" ≠ "" ∧
    addStudentRequest "Bob" "bob" "   " = some ⟨"Bob", "bob", "studentpass"⟩ :=
  ⟨by decide, by decide, by decide,
   (addStudent_default_password "Bob" "bob" "   ").1 (by decide) (by decide) (by decide)⟩

end AttendanceApp
